import Mathlib

/-!
Shallow embedding of `subencode.py` (the sub-encoding search for restricted
byte alphabets).  Python ints are modelled as `Nat`/`Int` with explicit
`% 2^32` / `% 256` where the source masks; fallible code returns `Except`.

Exceptions of the source are modelled as explicit error values:
`DivisionFailed`, plus the `ZeroDivisionError` Python raises on a zero
divisor, become `DivErr`; `EncodingFailure` and `BiggerDivision(div)` become
`ByteErr`; at the chunk level the `BiggerDivision` outcome carries the
pending carry variable, because the source's `except` handler (lines
170-176) keeps the current value of `carry` when it restarts the loop.

The central modelling point: line 53 of the source reads
`if mod == 0 and v in good_bytes:` where the computed remainder is named
`m`.  The name `mod` is never assigned by the program, is not a Python
builtin, and is not exported by the sole star import `from pwn import *`, so
evaluating the condition raises an uncaught `NameError`.  Line 53 is reached
exactly when the divisor is nonzero and the quotient is below 256, so in
those cases `check_div` terminates the whole program; the split search
(lines 56-69) and the carry retry (lines 71-76) are unreachable, and so are
every solver success, every `BiggerDivision` escalation and every restart of
the chunk loop.  The `NameError` is a constructor of every error type
below, and `check_div` returns it where line 53 sits.
-/

set_option autoImplicit false

namespace Subencode

/-- Outcomes of `check_div`: the `DivisionFailed` exception, the
`ZeroDivisionError` Python raises at `x // div` when `div == 0`, and the
`NameError` raised at line 53 by the undefined name `mod`. -/
inductive DivErr where
  | divisionFailed
  | zeroDivision
  | nameError
  deriving Repr, DecidableEq

/-- Outcomes of `encode_byte`: `EncodingFailure`, `BiggerDivision(div)`, and
the propagated `ZeroDivisionError` / `NameError` (only `DivisionFailed` is
caught by the loop at lines 98-113). -/
inductive ByteErr where
  | encodingFailure
  | biggerDivision (div : Nat)
  | zeroDivision
  | nameError
  deriving Repr, DecidableEq

/-- Outcomes of one pass of `encode_chunk`'s byte loop.  `biggerDivision`
records both the requested divisor and the value the mutable `carry`
variable has at the moment the exception is raised, since the source's
handler restarts the loop with that value of `carry` still in place (this
outcome is unreachable, see `encode_byte_no_biggerDivision`). -/
inductive PassErr where
  | encodingFailure
  | biggerDivision (div carry : Nat)
  | zeroDivision
  | nameError
  | indexError
  deriving Repr, DecidableEq

/-- Outcomes of `encode_chunk`.  Besides `EncodingFailure`, the uncaught
Python exceptions are represented (`NameError` from line 53,
`ZeroDivisionError`, `IndexError` from `encodings[i]`, `ValueError` from
`bytes(v)` on a non-byte entry), plus a fuel marker for the `while True`
loop; `encode_chunk_eq` below shows the result is always `NameError` or
`EncodingFailure`. -/
inductive ChunkErr where
  | encodingFailure
  | zeroDivision
  | indexError
  | valueError
  | nameError
  | loopFuel
  deriving Repr, DecidableEq

/-- Embedding of `check_div` (lines 32-76).  The reachable behavior: a zero
divisor raises `ZeroDivisionError` at `x // div` (line 45); a quotient
`v = x // div ≥ 256` raises `DivisionFailed` (lines 49-50); otherwise
control reaches line 53, `if mod == 0 and v in good_bytes:`, whose undefined
name `mod` raises an uncaught `NameError`.  The split search over
`combinations_with_replacement` (lines 56-69), the `recurse` failure
(lines 71-73) and the carry retry `check_div(x + 0x100, ..., carry + 1,
recurse=True)` (line 76) all sit below line 53 and are unreachable; the
`good`, `carry` and `recurse` parameters are kept for signature fidelity but
cannot influence the result. -/
def check_div (x div : Nat) (good : List Nat) (carry : Nat) (recurse : Bool) :
    Except DivErr (Nat × List Nat) :=
  if div = 0 then .error .zeroDivision
  else if 256 ≤ x / div then .error .divisionFailed
  else .error .nameError

/-- Python's `max_div & 0xFFFFFFFF` (line 97): for any int this equals
`max_div mod 2^32`, Python `&` acting on the infinite two's complement. -/
def maskedStop (max_div : Int) : Nat :=
  (max_div % (2 ^ 32 : Int)).toNat

/-- The `for div in range(start_div, max_div & 0xFFFFFFFF)` loop of
`encode_byte` (lines 97-118), iterating over the list of divisors the range
denotes: `DivisionFailed` is absorbed and the next divisor tried, any other
exception propagates, and a success is subject to the `BiggerDivision` check
of line 105; exhausting the range is the `for`/`else` branch raising
`EncodingFailure`.  (Since `check_div` never returns, the success arm is
unreachable; it is kept to mirror lines 100-109.) -/
def encode_byte_loop (x : Nat) (good : List Nat) (min_div carry : Nat) :
    List Nat → Except ByteErr (Nat × List Nat)
  | [] => .error .encodingFailure
  | div :: rest =>
    match check_div x div good carry false with
    | .ok (c, vs) =>
      if min_div ≠ 0 ∧ min_div < div then .error (.biggerDivision div)
      else .ok (c, vs)
    | .error .zeroDivision => .error .zeroDivision
    | .error .nameError => .error .nameError
    | .error .divisionFailed => encode_byte_loop x good min_div carry rest

/-- Embedding of `encode_byte` (lines 79-118): start the divisor search at
`1` when `min_div` is zero, else at `min_div`; `range(a, b)` is the list
`List.range' a (b - a)`. -/
def encode_byte (x : Nat) (good : List Nat) (min_div : Nat) (max_div : Int)
    (carry : Nat) : Except ByteErr (Nat × List Nat) :=
  let start_div := if min_div = 0 then 1 else min_div
  encode_byte_loop x good min_div carry
    (List.range' start_div (maskedStop max_div - start_div))

/-- Little-endian 4-byte packing `p32` of a value below `2^32`. -/
def p32 (x : Nat) : List Nat :=
  [x % 256, x / 2 ^ 8 % 256, x / 2 ^ 16 % 256, x / 2 ^ 24 % 256]

/-- Little-endian reassembly `u32` of a 4-byte row (line 167; unreachable in
the source, kept to mirror the text). -/
def u32 (row : List Nat) : Nat :=
  row.foldr (fun b acc => b + 256 * acc) 0

/-- Mutable state of `encode_chunk`'s byte loop: the `carry`, the current
uniform divisor `div`, and the `encodings` matrix of rows. -/
structure PassState where
  carry : Nat
  div : Nat
  rows : List (List Nat)
  deriving Repr, DecidableEq

/-- One iteration of the byte loop (lines 140-163): apply the pending carry
to the raw byte (` (x - carry) & 0xFF `, with the new carry 1 exactly when
the raw byte is below the pending carry), call `encode_byte` with
`min_div = div`, allocate the matrix if `div` is still `0`, and append each
returned value to its row (`encodings[i].append(v)`; an `IndexError` would
arise when `values` outnumber the rows, and rows beyond `len(values)` are
left untouched).  The success and `biggerDivision` arms mirror the source
but are unreachable, since `encode_byte` crashes or exhausts. -/
def passStep (good : List Nat) (max_div : Int) (st : PassState) (xRaw : Nat) :
    Except PassErr PassState :=
  let xAdj := (((xRaw : Int) - (st.carry : Int)) % 256).toNat
  let carryAdj : Nat := if xRaw < st.carry then 1 else 0
  match encode_byte xAdj good st.div max_div carryAdj with
  | .error .encodingFailure => .error .encodingFailure
  | .error .zeroDivision => .error .zeroDivision
  | .error .nameError => .error .nameError
  | .error (.biggerDivision d) => .error (.biggerDivision d carryAdj)
  | .ok (carryNew, values) =>
    let div := if st.div = 0 then values.length else st.div
    let rows := if st.div = 0 then List.replicate values.length ([] : List Nat)
      else st.rows
    if rows.length < values.length then .error .indexError
    else
      .ok ⟨carryNew, div,
        (List.zipWith (fun r v => r ++ [v]) rows values) ++ rows.drop values.length⟩

/-- The `for i, x in enumerate(p32(X))` loop over the byte list. -/
def runPass (good : List Nat) (max_div : Int) :
    List Nat → PassState → Except PassErr PassState
  | [], st => .ok st
  | x :: rest, st =>
    match passStep good max_div st x with
    | .ok st2 => runPass good max_div rest st2
    | .error e => .error e

/-- Line 167 of the source, `[u32(bytes(v)) for v in encodings]`: `bytes(v)`
raises `ValueError` unless every entry is a byte, and `u32` consumes exactly
4 bytes.  (Unreachable in the source; kept to mirror the text.) -/
def assemble (rows : List (List Nat)) : Except ChunkErr (List Nat) :=
  if rows.all (fun r => r.all (fun b => b < 256) && r.length == 4) then
    .ok (rows.map u32)
  else .error .valueError

/-- The `while True` loop of `encode_chunk` (lines 135-176), with an explicit
fuel for the restarts.  On `BiggerDivision` the handler sets `div` to the
requested divisor and reallocates the matrix; the `carry` variable is NOT
reset by the source, so the pending carry `c` is threaded into the next pass
unchanged.  (That branch is unreachable: the solver never succeeds, so
`BiggerDivision` is never raised and the loop body runs at most once.) -/
def encode_chunk_go (good : List Nat) (max_div : Int) (xBytes : List Nat) :
    Nat → Nat → Nat → Except ChunkErr (List Nat)
  | _, _, 0 => .error .loopFuel
  | div, carry, fuel + 1 =>
    match runPass good max_div xBytes ⟨carry, div, List.replicate div []⟩ with
    | .ok st => assemble st.rows
    | .error .encodingFailure => .error .encodingFailure
    | .error .zeroDivision => .error .zeroDivision
    | .error .nameError => .error .nameError
    | .error .indexError => .error .indexError
    | .error (.biggerDivision d c) => encode_chunk_go good max_div xBytes d c fuel

/-- Embedding of `encode_chunk` (lines 121-176): compute the complement
`X = (initial - chunk) & 0xFFFFFFFF` and run the restartable byte loop on the
4 little-endian bytes of `X`, starting with `div = 0`, `carry = 0` and an
empty matrix.  `encode_chunk_eq` below shows the outcome: the `NameError`
from line 53 at byte 0, divisor 1 whenever the masked ceiling is at least 2,
and `EncodingFailure` from the empty divisor range otherwise. -/
def encode_chunk (chunk : Nat) (good : List Nat) (initial : Int)
    (max_div : Int) : Except ChunkErr (List Nat) :=
  let X := ((initial - (chunk : Int)) % (2 ^ 32 : Int)).toNat
  encode_chunk_go good max_div (p32 X) 0 0 (maskedStop max_div + 1)

/-- Embedding of `decode` (lines 179-183): sequentially subtract the
components from `initial`, masking to 32 bits at each step. -/
def decode (encodings : List Nat) (initial : Int) : Int :=
  encodings.foldl (fun r v => (r - (v : Int)) % (2 ^ 32 : Int)) initial

/-- Embedding of `verify_chunk` (lines 186-187). -/
def verify_chunk (chunk : Nat) (encodings : List Nat) (initial : Int) : Bool :=
  (chunk : Int) == decode encodings initial

/-! ### Helper lemmas -/

/-- The division solver never returns: every call either raises
`ZeroDivisionError` (zero divisor), `DivisionFailed` (quotient too large),
or the line-53 `NameError`. -/
theorem check_div_never_ok (x div : Nat) (good : List Nat) (carry : Nat)
    (r : Bool) (p : Nat × List Nat) : check_div x div good carry r ≠ .ok p := by
  unfold check_div
  split
  · simp
  · split <;> simp

/-- No divisor list can make the search loop raise `BiggerDivision`, since
the escalation check sits behind a solver success that never happens. -/
theorem encode_byte_loop_no_biggerDivision (x : Nat) (good : List Nat)
    (min_div carry : Nat) :
    ∀ (ds : List Nat) (d : Nat),
      encode_byte_loop x good min_div carry ds ≠ .error (.biggerDivision d) := by
  intro ds
  induction ds with
  | nil =>
    intro d h
    simp [encode_byte_loop] at h
  | cons div rest ih =>
    intro d h
    cases hcd : check_div x div good carry false with
    | ok p => exact absurd hcd (check_div_never_ok x div good carry false p)
    | error e =>
      cases e with
      | divisionFailed =>
        simp only [encode_byte_loop, hcd] at h
        exact ih d h
      | zeroDivision =>
        simp only [encode_byte_loop, hcd] at h
        exact absurd h (by simp)
      | nameError =>
        simp only [encode_byte_loop, hcd] at h
        exact absurd h (by simp)

/-- The per-byte encoder never raises `BiggerDivision`. -/
theorem encode_byte_no_biggerDivision (x : Nat) (good : List Nat)
    (min_div : Nat) (max_div : Int) (carry d : Nat) :
    encode_byte x good min_div max_div carry ≠ .error (.biggerDivision d) := by
  simp only [encode_byte]
  exact encode_byte_loop_no_biggerDivision x good min_div carry _ d

/-- With floor `0` (the state of byte position 0 of a fresh chunk) and a
byte-sized target, the encoder crashes with the line-53 `NameError` at
divisor `1` — unless the masked ceiling is at most `1`, in which case the
divisor range is empty and it raises `EncodingFailure`. -/
theorem encode_byte_byte0 (x : Nat) (good : List Nat) (max_div : Int)
    (carry : Nat) (hx : x < 256) :
    encode_byte x good 0 max_div carry =
      if maskedStop max_div ≤ 1 then .error .encodingFailure
      else .error .nameError := by
  have hcd : check_div x 1 good carry false = .error .nameError := by
    unfold check_div
    rw [if_neg (by omega : ¬ (1 : Nat) = 0),
      if_neg (by omega : ¬ 256 ≤ x / 1)]
  by_cases hstop : maskedStop max_div ≤ 1
  · rw [if_pos hstop]
    show encode_byte_loop x good 0 carry
      (List.range' 1 (maskedStop max_div - 1)) = .error .encodingFailure
    rw [(by omega : maskedStop max_div - 1 = 0)]
    rfl
  · rw [if_neg hstop]
    show encode_byte_loop x good 0 carry
      (List.range' 1 (maskedStop max_div - 1)) = .error .nameError
    rw [(by omega : maskedStop max_div - 1 = (maskedStop max_div - 2) + 1),
      List.range'_succ]
    simp only [encode_byte_loop, hcd]

/-- A byte step taken with the divisor still unset crashes with `NameError`
(or `EncodingFailure` for a masked ceiling of at most `1`), for any raw byte
and pending carry: the adjusted byte is always below 256. -/
theorem passStep_div0 (good : List Nat) (max_div : Int) (carry x : Nat)
    (rows : List (List Nat)) :
    passStep good max_div ⟨carry, 0, rows⟩ x =
      if maskedStop max_div ≤ 1 then .error .encodingFailure
      else .error .nameError := by
  have hx : (((x : Int) - (carry : Int)) % 256).toNat < 256 := by
    have h0 : (0 : Int) ≤ ((x : Int) - (carry : Int)) % 256 :=
      Int.emod_nonneg _ (by norm_num)
    have h1 : ((x : Int) - (carry : Int)) % 256 < 256 :=
      Int.emod_lt_of_pos _ (by norm_num)
    omega
  by_cases hstop : maskedStop max_div ≤ 1
  · rw [if_pos hstop]
    simp only [passStep]
    rw [encode_byte_byte0 _ good max_div _ hx, if_pos hstop]
  · rw [if_neg hstop]
    simp only [passStep]
    rw [encode_byte_byte0 _ good max_div _ hx, if_neg hstop]

/-- A pass over a nonempty byte list starting with the divisor unset aborts
at its first byte. -/
theorem runPass_div0 (good : List Nat) (max_div : Int) (x : Nat)
    (rest : List Nat) (carry : Nat) (rows : List (List Nat)) :
    runPass good max_div (x :: rest) ⟨carry, 0, rows⟩ =
      if maskedStop max_div ≤ 1 then .error .encodingFailure
      else .error .nameError := by
  by_cases hstop : maskedStop max_div ≤ 1
  · have hps := passStep_div0 good max_div carry x rows
    rw [if_pos hstop] at hps ⊢
    simp only [runPass, hps]
  · have hps := passStep_div0 good max_div carry x rows
    rw [if_neg hstop] at hps ⊢
    simp only [runPass, hps]

/-- Total characterization of `encode_chunk` on the source: byte 0 of the
first (and only) pass crashes with the line-53 `NameError` at divisor `1`
whenever the masked ceiling is at least `2`; a masked ceiling of at most `1`
makes the divisor range empty, raising `EncodingFailure`.  In particular no
input ever yields an encoding, a restart, or any other outcome. -/
theorem encode_chunk_eq (chunk : Nat) (good : List Nat)
    (initial max_div : Int) :
    encode_chunk chunk good initial max_div =
      if maskedStop max_div ≤ 1 then .error .encodingFailure
      else .error .nameError := by
  simp only [encode_chunk]
  generalize ((initial - (chunk : Int)) % (2 ^ 32 : Int)).toNat = X
  by_cases hstop : maskedStop max_div ≤ 1
  · have hrp := runPass_div0 good max_div (X % 256)
      [X / 2 ^ 8 % 256, X / 2 ^ 16 % 256, X / 2 ^ 24 % 256] 0
      (List.replicate 0 [])
    rw [if_pos hstop] at hrp ⊢
    simp only [p32, encode_chunk_go, hrp]
  · have hrp := runPass_div0 good max_div (X % 256)
      [X / 2 ^ 8 % 256, X / 2 ^ 16 % 256, X / 2 ^ 24 % 256] 0
      (List.replicate 0 [])
    rw [if_neg hstop] at hrp ⊢
    simp only [p32, encode_chunk_go, hrp]

/-- Closed form of `decode` for a 32-bit initial value: the fold of masked
subtractions equals the single masked subtraction of the component sum. -/
theorem decode_eq_sub_sum : ∀ (E : List Nat) (i : Int), 0 ≤ i → i < 2 ^ 32 →
    decode E i = (i - (E.sum : Int)) % 2 ^ 32 := by
  intro E
  induction E with
  | nil =>
    intro i h0 h1
    simp only [decode, List.foldl_nil, List.sum_nil, Nat.cast_zero, sub_zero]
    exact (Int.emod_eq_of_lt h0 h1).symm
  | cons v E ih =>
    intro i h0 h1
    have hstep : decode (v :: E) i = decode E ((i - (v : Int)) % 2 ^ 32) := rfl
    rw [hstep, ih _ (Int.emod_nonneg _ (by norm_num)) (Int.emod_lt_of_pos _ (by norm_num))]
    rw [Int.sub_emod ((i - (v : Int)) % 2 ^ 32) (E.sum : Int),
      Int.emod_emod_of_dvd _ dvd_rfl,
      ← Int.sub_emod (i - (v : Int)) (E.sum : Int)]
    have hsum : (((v :: E).sum : Nat) : Int) = (v : Int) + (E.sum : Int) := by
      rw [List.sum_cons]
      push_cast
      ring
    rw [hsum, sub_add_eq_sub_sub]

/-! ### The claims -/

/-- C1: the round-trip contract is unexercisable on the code.  On the
representative input `c = 0`, `G = {0x55, 0x80}`, `i = 0`, `m = 10`,
`encode_chunk` terminates with the uncaught line-53 `NameError` (byte 0,
divisor 1) and can return no encoding at all, so there is no successful `E`
for `decode` to reproduce the chunk from. -/
theorem encode_chunk_roundtrip_input_nameError :
    encode_chunk 0 [0x55, 0x80] 0 10 = .error .nameError ∧
      ∀ E : List Nat, encode_chunk 0 [0x55, 0x80] 0 10 ≠ .ok E := by
  have h : encode_chunk 0 [0x55, 0x80] 0 10 = .error .nameError := rfl
  exact ⟨h, fun E hE => by rw [h] at hE; exact absurd hE (by simp)⟩

/-- C2: the byte-membership property is unexercisable on the code.  On the
input `c = 0xFBFBFBFC`, `G = {2}`, `i = 0`, `m = 10` — which the intended
algorithm would encode as two components `0x02020202` — `encode_chunk`
terminates with the uncaught line-53 `NameError` and produces no encoding
whose bytes could be checked against `G`. -/
theorem encode_chunk_membership_input_nameError :
    encode_chunk 0xFBFBFBFC [2] 0 10 = .error .nameError ∧
      ∀ E : List Nat, encode_chunk 0xFBFBFBFC [2] 0 10 ≠ .ok E := by
  have h : encode_chunk 0xFBFBFBFC [2] 0 10 = .error .nameError := rfl
  exact ⟨h, fun E hE => by rw [h] at hE; exact absurd hE (by simp)⟩

/-- C3: the `rem == 0` fast path never executes.  The input `x = 0x41`,
`div = 1`, `G = {0x41}` satisfies the claim's hypotheses — `x % div = 0`,
`x / div < 256`, `x / div ∈ G` — yet `check_div` raises the uncaught
`NameError` from line 53 (which tests the undefined name `mod` instead of
the computed remainder `m`) rather than succeeding with one copy of
`0x41`. -/
theorem check_div_fast_path_nameError :
    (65 % 1 = 0 ∧ 65 / 1 = 65 ∧ 65 / 1 < 256 ∧ 65 ∈ ([0x41] : List Nat)) ∧
      check_div 65 1 [0x41] 0 false = .error .nameError :=
  ⟨by decide, rfl⟩

/-- C4: the needs-larger-divisor restart can never happen.  The per-byte
encoder never raises `BiggerDivision` for any input, because the solver
never succeeds (every call below the 256 quotient guard raises the line-53
`NameError`); concretely, the first pass on the chunk `X = 0` with
`G = {0x55, 0x80}` aborts with `NameError` at byte 0, before any divisor is
fixed, any progress accrues, or any carry propagates. -/
theorem encode_chunk_no_restart_nameError :
    (∀ (x : Nat) (good : List Nat) (min_div : Nat) (max_div : Int)
        (carry d : Nat),
      encode_byte x good min_div max_div carry ≠ .error (.biggerDivision d)) ∧
    runPass [0x55, 0x80] 10 (p32 0) ⟨0, 0, List.replicate 0 []⟩ =
      .error .nameError :=
  ⟨encode_byte_no_biggerDivision, rfl⟩

/-- C5 counterexample: Scenario A fails on the code.  With `G = {0x41}`,
`i = 0`, `c = 0x41414141` and the documented default ceiling `10`,
`encode_chunk` terminates with the uncaught line-53 `NameError` rather than
succeeding with `div = 1`; the scenario's claimed output is impossible
anyway, since `decode([0x41414141], 0) = 0xBEBEBEBF ≠ 0x41414141`. -/
theorem scenario_a_counterexample :
    encode_chunk 0x41414141 [0x41] 0 10 = .error .nameError ∧
      decode [0x41414141] 0 = 0xBEBEBEBF :=
  ⟨rfl, rfl⟩

/-- C5 amended: with `G = {0x41}`, `i = 0`, `c = 0x41414141` (ceiling `10`),
`encode_chunk` does not succeed — it terminates with the uncaught line-53
`NameError`, returning no encoding — and no encoding `[0x41414141]` could
satisfy the scenario, because `decode([0x41414141], 0) = 0xBEBEBEBF`. -/
theorem scenario_a_amended :
    encode_chunk 0x41414141 [0x41] 0 10 = .error .nameError ∧
      (∀ E : List Nat, encode_chunk 0x41414141 [0x41] 0 10 ≠ .ok E) ∧
      decode [0x41414141] 0 = 0xBEBEBEBF := by
  have h : encode_chunk 0x41414141 [0x41] 0 10 = .error .nameError := rfl
  exact ⟨h, fun E hE => by rw [h] at hE; exact absurd hE (by simp), rfl⟩

/-- C6: the premise of the escalation rule never arises: there is no "first
divisor at which the division solver succeeds", because `check_div` never
returns a value for any input.  Concretely, the encoder call of the claim's
scenario (byte value `255`, floor `2`) crashes with the line-53 `NameError`
at its first divisor `2` (quotient `127 < 256`) instead of searching on. -/
theorem encode_byte_no_first_success_nameError :
    (∀ (x div : Nat) (good : List Nat) (carry : Nat) (r : Bool)
        (p : Nat × List Nat), check_div x div good carry r ≠ .ok p) ∧
    encode_byte 255 [0x55, 0x80] 2 10 1 = .error .nameError :=
  ⟨check_div_never_ok, rfl⟩

/-- C7: the carry retry never executes.  At `x = 16`, `div = 1`,
`G = {0x41}` — where no equal or offset split exists — the solver raises the
uncaught line-53 `NameError` in both retry states, instead of retrying at
`x + 0x100` (retry unused) or raising `DivisionFailed` (retry used): the
no-split branch of lines 71-76 sits below the crashing line. -/
theorem check_div_no_retry_nameError :
    check_div 16 1 [0x41] 0 false = .error .nameError ∧
      check_div 16 1 [0x41] 0 true = .error .nameError :=
  ⟨rfl, rfl⟩

/-- C8: `encode_chunk` does terminate on every input, but not with the
claimed dichotomy: with the positive ceiling `10` (masked value at least
`2`) it terminates with the uncaught line-53 `NameError`, and in general the
result is that `NameError` or — only for a masked ceiling of at most `1`,
whose divisor range is empty — `EncodingFailure`.  No restart ever occurs,
so the divisor-increase argument is vacuous. -/
theorem encode_chunk_terminates_nameError :
    encode_chunk 0 [0x41] 0 10 = .error .nameError ∧
      ∀ (chunk : Nat) (good : List Nat) (initial max_div : Int),
        encode_chunk chunk good initial max_div = .error .nameError ∨
          encode_chunk chunk good initial max_div = .error .encodingFailure := by
  refine ⟨rfl, ?_⟩
  intro chunk good initial max_div
  rw [encode_chunk_eq]
  by_cases hstop : maskedStop max_div ≤ 1
  · rw [if_pos hstop]
    exact Or.inr rfl
  · rw [if_neg hstop]
    exact Or.inl rfl

/-- C9: the chunk encoder is deterministic: two runs on identical inputs
`(c, G, i, m)` produce identical results — the same encoding on success, or
the same failure (the embedding is a pure function of its inputs; on the
source the identical result is the identical uncaught `NameError` or
`EncodingFailure`). -/
theorem encode_chunk_deterministic {chunk : Nat} {good : List Nat}
    {initial max_div : Int} {r1 r2 : Except ChunkErr (List Nat)}
    (h1 : encode_chunk chunk good initial max_div = r1)
    (h2 : encode_chunk chunk good initial max_div = r2) : r1 = r2 := by
  rw [h1] at h2
  exact h2

/-- Witness for C9 at a concrete input, whose identical result is the
line-53 `NameError`. -/
theorem encode_chunk_deterministic_witness :
    encode_chunk 0xFDFDFDFE [1] 0 10 = .error .nameError ∧
      (Except.error ChunkErr.nameError : Except ChunkErr (List Nat)) =
        Except.error ChunkErr.nameError :=
  ⟨rfl, @encode_chunk_deterministic 0xFDFDFDFE [1] 0 10
    (.error .nameError) (.error .nameError) rfl rfl⟩

/-- C10: for a 32-bit initial value `i`, `decode E i` equals
`(i - sum E) mod 2^32`, and is therefore invariant under any permutation of
the components of `E`. -/
theorem decode_eq_initial_sub_sum {E : List Nat} {i : Int}
    (h0 : 0 ≤ i) (h1 : i < 2 ^ 32) :
    decode E i = (i - (E.sum : Int)) % 2 ^ 32 ∧
      ∀ E' : List Nat, E.Perm E' → decode E i = decode E' i := by
  refine ⟨decode_eq_sub_sum E i h0 h1, ?_⟩
  intro E' hp
  rw [decode_eq_sub_sum E i h0 h1, decode_eq_sub_sum E' i h0 h1, hp.sum_eq]

/-- Witness for C10 on a concrete list and permutation. -/
theorem decode_eq_initial_sub_sum_witness :
    decode [1, 2] 5 = ((5 : Int) - (([1, 2] : List Nat).sum : Int)) % 2 ^ 32 ∧
      decode [1, 2] 5 = decode [2, 1] 5 := by
  obtain ⟨h1, h2⟩ := @decode_eq_initial_sub_sum [1, 2] 5 (by decide) (by decide)
  exact ⟨h1, h2 [2, 1] (List.Perm.swap 2 1 [])⟩

end Subencode
